import Mathlib

/-!
Shallow embedding of `src/grout/__init__.py` (package `grout`, class `Grout`
and record `TileSpec`), with theorems checking the specification's claims.

Modelling conventions:
* Python ints for pixel arithmetic are `ℕ` (all pixel quantities in play are
  non-negative; truncated subtraction only ever occurs where the source
  guarantees the minuend dominates, which the proofs establish).
* Tile indices passed to `__getitem__` are `ℤ`, since Python accepts and
  bound-checks negative values; Python's `divmod` with a positive divisor is
  floor division, which on `ℤ` with a positive divisor is `Int.ediv`/`Int.emod`,
  the `/` and `%` of this Lean core.
* Python floats for coordinates are modelled as exact rationals `ℚ`.
* `raise` is modelled with `Except String`.
-/

instance {ε α : Type} [DecidableEq ε] [DecidableEq α] : DecidableEq (Except ε α) := fun
  | .error a, .error b =>
      if h : a = b then .isTrue (congrArg Except.error h)
      else .isFalse fun hc => h (Except.error.inj hc)
  | .error _, .ok _ => .isFalse fun hc => Except.noConfusion hc
  | .ok _, .error _ => .isFalse fun hc => Except.noConfusion hc
  | .ok a, .ok b =>
      if h : a = b then .isTrue (congrArg Except.ok h)
      else .isFalse fun hc => h (Except.ok.inj hc)

/-- Ceiling division on naturals: `math.ceil(a / b)` of the source for
integer `a`, `b` with `b > 0` (exact arithmetic). -/
def ceilDiv (a b : ℕ) : ℕ := (a + b - 1) / b

/-- Embedding of the `TileSpec` NamedTuple. -/
structure TileSpec where
  col : ℕ
  row : ℕ
  offset_x : ℕ
  offset_y : ℕ
  ncol : ℕ
  nrow : ℕ
  xmin : ℚ
  xmax : ℚ
  ymin : ℚ
  ymax : ℚ
deriving DecidableEq, Repr

/-- State of a constructed `Grout` object: the fields assigned in
`Grout.__init__` before the derived tile counts. -/
structure Grout where
  ncol : ℕ
  nrow : ℕ
  block_width : ℕ
  block_height : ℕ
  xmin : ℚ
  ymax : ℚ
  xres : ℚ
  yres : ℚ
deriving DecidableEq, Repr

/-- Derived field `self.tile_cols = math.ceil(self.ncol / self.block_width)`. -/
def Grout.tile_cols (g : Grout) : ℕ := ceilDiv g.ncol g.block_width

/-- Derived field `self.tile_rows = math.ceil(self.nrow / self.block_height)`. -/
def Grout.tile_rows (g : Grout) : ℕ := ceilDiv g.nrow g.block_height

/-- Embedding of `Grout.__init__`: `dim`, `blocksize`, optional `extent`
`(xmin, xmax, ymin, ymax)`, optional `transform` 6-tuple.  The source tests
`extent` first, falls back to `transform`, else raises `ValueError`.
Python's divisions raise `ZeroDivisionError` along the way: in the extent
branch the `xres` division by `ncol` and then the `yres` division by `nrow`,
and in every non-raising branch the trailing `tile_cols`/`tile_rows`
computations divide by `block_width` and then `block_height`.  Those two
stored counts are pure functions of the immutable fields and are recovered
by the derived `tile_cols`/`tile_rows` above, which agree with the source's
values whenever the block sizes are positive (i.e. whenever construction
did not raise). -/
def Grout.init (dim : ℕ × ℕ) (blocksize : ℕ × ℕ)
    (extent : Option (ℚ × ℚ × ℚ × ℚ))
    (transform : Option (ℚ × ℚ × ℚ × ℚ × ℚ × ℚ)) : Except String Grout :=
  match extent with
  | some (xmin, xmax, ymin, ymax) =>
      if dim.1 = 0 then Except.error "division by zero"
      else if dim.2 = 0 then Except.error "division by zero"
      else if blocksize.1 = 0 then Except.error "division by zero"
      else if blocksize.2 = 0 then Except.error "division by zero"
      else
        Except.ok
          { ncol := dim.1, nrow := dim.2
            block_width := blocksize.1, block_height := blocksize.2
            xmin := xmin, ymax := ymax
            xres := (xmax - xmin) / (dim.1 : ℚ)
            yres := (ymax - ymin) / (dim.2 : ℚ) }
  | none =>
      match transform with
      | some (xmin, xres, _, ymax, _, yres) =>
          if blocksize.1 = 0 then Except.error "division by zero"
          else if blocksize.2 = 0 then Except.error "division by zero"
          else
            Except.ok
              { ncol := dim.1, nrow := dim.2
                block_width := blocksize.1, block_height := blocksize.2
                xmin := xmin, ymax := ymax
                xres := xres
                yres := -yres }
      | none => Except.error "Must provide extent or transform"

/-- Total number of tiles: `Grout.__len__`, `return self.tile_rows * self.tile_cols`. -/
def Grout.len (g : Grout) : ℕ := g.tile_rows * g.tile_cols

/-- Shared tile computation of `Grout.__getitem__` (the lines after the bound
check): offsets, clipped sizes and coordinate bounds for tile `(tc, tr)`. -/
def Grout.tileBody (g : Grout) (tc tr : ℕ) : TileSpec :=
  let offset_x := tc * g.block_width
  let offset_y := tr * g.block_height
  let ncol := min g.block_width (g.ncol - offset_x)
  let nrow := min g.block_height (g.nrow - offset_y)
  let tile_xmin := g.xmin + (offset_x : ℚ) * g.xres
  let tile_xmax := tile_xmin + (ncol : ℚ) * g.xres
  let tile_ymax := g.ymax - (offset_y : ℚ) * g.yres
  let tile_ymin := tile_ymax - (nrow : ℚ) * g.yres
  { col := tc, row := tr, offset_x := offset_x, offset_y := offset_y
    ncol := ncol, nrow := nrow
    xmin := tile_xmin, xmax := tile_xmax, ymin := tile_ymin, ymax := tile_ymax }

/-- Embedding of `Grout.__getitem__` on a `(col, row)` tuple: bound check then
the shared tile computation. -/
def Grout.tile_at (g : Grout) (tc tr : ℤ) : Except String TileSpec :=
  if 0 ≤ tc ∧ tc < (g.tile_cols : ℤ) ∧ 0 ≤ tr ∧ tr < (g.tile_rows : ℤ) then
    Except.ok (g.tileBody tc.toNat tr.toNat)
  else
    Except.error "Tile index out of range"

/-- Embedding of `Grout.__getitem__` on a linear index:
`tr, tc = divmod(idx, self.tile_cols)` and then the same check and body,
i.e. exactly `tile_at` on the converted pair (`/`/`%` on `ℤ` are
`Int.ediv`/`Int.emod`, Python's floor `divmod` for the positive divisor). -/
def Grout.tile_at_linear (g : Grout) (idx : ℤ) : Except String TileSpec :=
  g.tile_at (idx % (g.tile_cols : ℤ)) (idx / (g.tile_cols : ℤ))

/-- Embedding of `Grout.__iter__`: row-major nested loops, each yield
computing the same formulas as `__getitem__` (repeated in the source). -/
def Grout.iterate (g : Grout) : List TileSpec :=
  (List.range g.tile_rows).flatMap fun tr =>
    (List.range g.tile_cols).map fun tc =>
      let offset_x := tc * g.block_width
      let offset_y := tr * g.block_height
      let ncol := min g.block_width (g.ncol - offset_x)
      let nrow := min g.block_height (g.nrow - offset_y)
      let tile_xmin := g.xmin + (offset_x : ℚ) * g.xres
      let tile_xmax := tile_xmin + (ncol : ℚ) * g.xres
      let tile_ymax := g.ymax - (offset_y : ℚ) * g.yres
      let tile_ymin := tile_ymax - (nrow : ℚ) * g.yres
      { col := tc, row := tr, offset_x := offset_x, offset_y := offset_y
        ncol := ncol, nrow := nrow
        xmin := tile_xmin, xmax := tile_xmax, ymin := tile_ymin, ymax := tile_ymax }

/-- Ranges yielded by `Grout.index_partition` once `per_chunk` is computed
(`n > 0` so the division did not raise): for `i in range(n)`,
`start = i * per_chunk`, `stop = min(start + per_chunk, len(self))`, yielded
only when `start < stop`. -/
def Grout.index_partition_ranges (g : Grout) (n : ℕ) : List (ℕ × ℕ) :=
  let per_chunk := ceilDiv g.len n
  ((List.range n).map fun i =>
      (i * per_chunk, min (i * per_chunk + per_chunk) g.len)).filter
    fun r => decide (r.1 < r.2)

/-- Embedding of `Grout.index_partition`: `per_chunk = math.ceil(len(self)/n)`
raises `ZeroDivisionError` when `n = 0`, otherwise the ranges above. -/
def Grout.index_partition (g : Grout) (n : ℕ) : Except String (List (ℕ × ℕ)) :=
  if n = 0 then Except.error "division by zero"
  else Except.ok (g.index_partition_ranges n)

/-- Concrete grid from the test suite: `dim=(1000, 500)`,
`extent=(0, 100, 0, 50)`, `blocksize=(256, 256)`. -/
def g1000 : Grout :=
  { ncol := 1000, nrow := 500, block_width := 256, block_height := 256
    xmin := 0, ymax := 50, xres := 1/10, yres := 1/10 }

example : Grout.init (1000, 500) (256, 256) (some (0, 100, 0, 50)) none = Except.ok g1000 := by
  simp only [Grout.init, g1000, Except.ok.injEq, Grout.mk.injEq]
  norm_num

example : Grout.init (0, 500) (256, 256) (some (0, 100, 0, 50)) none =
    Except.error "division by zero" := by
  simp [Grout.init]

example : Grout.init (1000, 500) (0, 256) none (some (0, 1/10, 0, 50, 0, -(1/10))) =
    Except.error "division by zero" := by
  simp [Grout.init]

example : g1000.tile_cols = 4 ∧ g1000.tile_rows = 2 ∧ g1000.len = 8 := by decide

example : g1000.iterate.length = 8 := by decide

example : g1000.tile_at 1 0 = Except.ok
    { col := 1, row := 0, offset_x := 256, offset_y := 0, ncol := 256, nrow := 256
      xmin := 128/5, xmax := 256/5, ymin := 122/5, ymax := 50 } := by
  simp only [Grout.tile_at, Grout.tile_cols, Grout.tile_rows, ceilDiv, g1000]
  norm_num [Grout.tileBody]

example : g1000.index_partition_ranges 3 = [(0, 3), (3, 6), (6, 8)] := by decide

/-! ### Arithmetic facts about ceiling division -/

lemma lt_ceilDiv_iff {b : ℕ} (hb : 0 < b) {i a : ℕ} : i < ceilDiv a b ↔ i * b < a := by
  unfold ceilDiv
  rw [Nat.lt_iff_add_one_le, Nat.le_div_iff_mul_le hb, Nat.add_mul, Nat.one_mul]
  omega

lemma ceilDiv_pos_iff {b : ℕ} (hb : 0 < b) {a : ℕ} : 0 < ceilDiv a b ↔ 0 < a := by
  have h := @lt_ceilDiv_iff b hb 0 a
  simpa using h

lemma le_ceilDiv_mul {b : ℕ} (hb : 0 < b) (a : ℕ) : a ≤ ceilDiv a b * b := by
  by_contra h
  have h2 : ceilDiv a b * b < a := by omega
  exact Nat.lt_irrefl _ ((lt_ceilDiv_iff hb).mpr h2)

lemma ceilDiv_le_iff {b : ℕ} (hb : 0 < b) {a n : ℕ} : ceilDiv a b ≤ n ↔ a ≤ n * b := by
  rw [← Nat.not_lt, lt_ceilDiv_iff hb, Nat.not_lt]

lemma ceilDiv_cast {b : ℕ} (hb : 0 < b) (a : ℕ) :
    (ceilDiv a b : ℤ) = ⌈(a : ℚ) / (b : ℚ)⌉ := by
  have hbQ : (0 : ℚ) < (b : ℚ) := by exact_mod_cast hb
  symm
  rw [Int.ceil_eq_iff]
  constructor
  · rw [lt_div_iff₀ hbQ]
    rcases Nat.eq_zero_or_pos a with ha | ha
    · have h0 : ceilDiv 0 b = 0 := Nat.div_eq_of_lt (by omega)
      subst ha
      rw [h0]
      push_cast
      nlinarith
    · have hc1 : 0 < ceilDiv a b := (ceilDiv_pos_iff hb).mpr ha
      have h3 : (ceilDiv a b - 1) * b < a := (lt_ceilDiv_iff hb).mp (by omega)
      have h4 : (((ceilDiv a b - 1) * b : ℕ) : ℚ) < (a : ℕ) := by exact_mod_cast h3
      push_cast [Nat.cast_sub hc1] at h4
      push_cast
      linarith
  · rw [div_le_iff₀ hbQ]
    have h1 := le_ceilDiv_mul hb a
    push_cast
    exact_mod_cast h1

lemma last_block_size {b a : ℕ} (hb : 0 < b) (ha : 0 < a) :
    a - (ceilDiv a b - 1) * b ≤ b ∧
    (a - (ceilDiv a b - 1) * b < b ↔ ¬ b ∣ a) := by
  set c := ceilDiv a b with hcdef
  have hc1 : 0 < c := (ceilDiv_pos_iff hb).mpr ha
  have h1 : a ≤ c * b := le_ceilDiv_mul hb a
  have h3 : (c - 1) * b < a := (lt_ceilDiv_iff hb).mp (by omega)
  have h2 : (c - 1) * b = c * b - b := by rw [Nat.sub_mul, Nat.one_mul]
  have hbc : b ≤ c * b := Nat.le_mul_of_pos_left b hc1
  refine ⟨by omega, ?_, ?_⟩
  · intro hlt hdvd
    obtain ⟨k, hk⟩ := hdvd
    rw [Nat.mul_comm] at hk
    subst hk
    have e1 : k * b < c * b := by omega
    have e2 : k < c := lt_of_mul_lt_mul_right e1 (Nat.zero_le b)
    have e3 : c - 1 < k := lt_of_mul_lt_mul_right h3 (Nat.zero_le b)
    omega
  · intro hndvd
    have hne : a ≠ c * b := fun he => hndvd ⟨c, by rw [he, Nat.mul_comm]⟩
    omega

/-! ### Basic facts about the derived tile-grid shape -/

lemma Grout.lt_tile_cols_iff (g : Grout) (hbw : 0 < g.block_width) {i : ℕ} :
    i < g.tile_cols ↔ i * g.block_width < g.ncol := lt_ceilDiv_iff hbw

lemma Grout.lt_tile_rows_iff (g : Grout) (hbh : 0 < g.block_height) {i : ℕ} :
    i < g.tile_rows ↔ i * g.block_height < g.nrow := lt_ceilDiv_iff hbh

lemma Grout.ncol_le_mul (g : Grout) (hbw : 0 < g.block_width) :
    g.ncol ≤ g.tile_cols * g.block_width := le_ceilDiv_mul hbw _

lemma Grout.nrow_le_mul (g : Grout) (hbh : 0 < g.block_height) :
    g.nrow ≤ g.tile_rows * g.block_height := le_ceilDiv_mul hbh _

lemma Grout.tile_at_ok (g : Grout) {col row : ℕ}
    (hcol : col < g.tile_cols) (hrow : row < g.tile_rows) :
    g.tile_at (col : ℤ) (row : ℤ) = Except.ok (g.tileBody col row) := by
  unfold Grout.tile_at
  rw [if_pos ⟨Int.natCast_nonneg col, by exact_mod_cast hcol,
      Int.natCast_nonneg row, by exact_mod_cast hrow⟩]
  simp

lemma Grout.tileBody_ncol (g : Grout) (tc tr : ℕ) :
    (g.tileBody tc tr).ncol = min g.block_width (g.ncol - tc * g.block_width) := rfl

lemma Grout.tileBody_nrow (g : Grout) (tc tr : ℕ) :
    (g.tileBody tc tr).nrow = min g.block_height (g.nrow - tr * g.block_height) := rfl

/-! ### Claims -/

/-- C1: for every grid with positive dimensions and tile size and every
in-range `(col, row)`, tile lookup returns a record with
`offset_x = col * tile_width`, `offset_y = row * tile_height`,
`width = min(tile_width, grid_width - offset_x)` and
`height = min(tile_height, grid_height - offset_y)`; the last column's width
equals `grid_width - (tile_cols - 1) * tile_width`, which is `< tile_width`
exactly when `grid_width` is not a multiple of `tile_width` and equals
`tile_width` otherwise, and symmetrically for rows/height. -/
theorem C1_tile_lookup (g : Grout) (hbw : 0 < g.block_width) (hbh : 0 < g.block_height)
    (hc : 0 < g.ncol) (hr : 0 < g.nrow) :
    (∀ col row : ℕ, col < g.tile_cols → row < g.tile_rows →
      ∃ t : TileSpec, g.tile_at (col : ℤ) (row : ℤ) = Except.ok t ∧
        t.offset_x = col * g.block_width ∧
        t.offset_y = row * g.block_height ∧
        t.offset_x < g.ncol ∧ t.offset_y < g.nrow ∧
        t.ncol = min g.block_width (g.ncol - t.offset_x) ∧
        t.nrow = min g.block_height (g.nrow - t.offset_y)) ∧
    (∀ row : ℕ, row < g.tile_rows →
      ∃ t : TileSpec, g.tile_at ((g.tile_cols - 1 : ℕ) : ℤ) (row : ℤ) = Except.ok t ∧
        t.ncol = g.ncol - (g.tile_cols - 1) * g.block_width ∧
        (t.ncol < g.block_width ↔ ¬ g.block_width ∣ g.ncol) ∧
        (g.block_width ∣ g.ncol → t.ncol = g.block_width)) ∧
    (∀ col : ℕ, col < g.tile_cols →
      ∃ t : TileSpec, g.tile_at (col : ℤ) ((g.tile_rows - 1 : ℕ) : ℤ) = Except.ok t ∧
        t.nrow = g.nrow - (g.tile_rows - 1) * g.block_height ∧
        (t.nrow < g.block_height ↔ ¬ g.block_height ∣ g.nrow) ∧
        (g.block_height ∣ g.nrow → t.nrow = g.block_height)) := by
  have hcols : 0 < g.tile_cols := by
    rw [g.lt_tile_cols_iff hbw]
    simpa using hc
  have hrows : 0 < g.tile_rows := by
    rw [g.lt_tile_rows_iff hbh]
    simpa using hr
  have hW := @last_block_size g.block_width g.ncol hbw hc
  have hH := @last_block_size g.block_height g.nrow hbh hr
  rw [show ceilDiv g.ncol g.block_width = g.tile_cols from rfl] at hW
  rw [show ceilDiv g.nrow g.block_height = g.tile_rows from rfl] at hH
  refine ⟨?_, ?_, ?_⟩
  · intro col row hcol hrow
    refine ⟨g.tileBody col row, g.tile_at_ok hcol hrow, rfl, rfl, ?_, ?_, rfl, rfl⟩
    · exact (g.lt_tile_cols_iff hbw).mp hcol
    · exact (g.lt_tile_rows_iff hbh).mp hrow
  · intro row hrow
    have hcol : g.tile_cols - 1 < g.tile_cols := by omega
    refine ⟨g.tileBody (g.tile_cols - 1) row, g.tile_at_ok hcol hrow, ?_, ?_, ?_⟩
    · rw [g.tileBody_ncol]
      exact Nat.min_eq_right hW.1
    · rw [g.tileBody_ncol, Nat.min_eq_right hW.1]
      exact hW.2
    · intro hdvd
      rw [g.tileBody_ncol, Nat.min_eq_right hW.1]
      have := hW.2.not.mpr (by simpa using hdvd)
      omega
  · intro col hcol
    have hrow : g.tile_rows - 1 < g.tile_rows := by omega
    refine ⟨g.tileBody col (g.tile_rows - 1), g.tile_at_ok hcol hrow, ?_, ?_, ?_⟩
    · rw [g.tileBody_nrow]
      exact Nat.min_eq_right hH.1
    · rw [g.tileBody_nrow, Nat.min_eq_right hH.1]
      exact hH.2
    · intro hdvd
      rw [g.tileBody_nrow, Nat.min_eq_right hH.1]
      have := hH.2.not.mpr (by simpa using hdvd)
      omega

/-- Witness for C1 at the test-suite grid `1000×500`, tiles `256×256`. -/
theorem C1_tile_lookup_witness :
    (0 : ℕ) < g1000.block_width ∧ (1 : ℕ) < g1000.tile_cols ∧
    ∃ t : TileSpec, g1000.tile_at ((1 : ℕ) : ℤ) ((0 : ℕ) : ℤ) = Except.ok t ∧
      t.offset_x = 1 * g1000.block_width ∧
      t.offset_y = 0 * g1000.block_height ∧
      t.offset_x < g1000.ncol ∧ t.offset_y < g1000.nrow ∧
      t.ncol = min g1000.block_width (g1000.ncol - t.offset_x) ∧
      t.nrow = min g1000.block_height (g1000.nrow - t.offset_y) :=
  ⟨by decide, by decide,
    (C1_tile_lookup g1000 (by decide) (by decide) (by decide) (by decide)).1
      1 0 (by decide) (by decide)⟩

/-- C2: for all positive grid and tile dimensions, `len` (the `__len__`
embedding) equals `tile_cols * tile_rows` as derived at construction, which
equals `ceil(grid_width / tile_width) * ceil(grid_height / tile_height)`. -/
theorem C2_count_correct (g : Grout) (hbw : 0 < g.block_width) (hbh : 0 < g.block_height)
    (hc : 0 < g.ncol) (hr : 0 < g.nrow) :
    g.len = g.tile_cols * g.tile_rows ∧
    (g.len : ℤ) =
      ⌈(g.ncol : ℚ) / (g.block_width : ℚ)⌉ * ⌈(g.nrow : ℚ) / (g.block_height : ℚ)⌉ := by
  unfold Grout.len Grout.tile_cols Grout.tile_rows
  refine ⟨Nat.mul_comm _ _, ?_⟩
  rw [← ceilDiv_cast hbw, ← ceilDiv_cast hbh]
  push_cast
  ring

/-- Witness for C2 at the test-suite grid `1000×500`, tiles `256×256`. -/
theorem C2_count_correct_witness : g1000.len = g1000.tile_cols * g1000.tile_rows :=
  (C2_count_correct g1000 (by decide) (by decide) (by decide) (by decide)).1

/-- C4: `tile_at_linear` converts the linear index by `divmod` with
`tile_cols` and delegates to the `(col, row)` lookup; the equality holds for
every integer index, in particular for every valid one. -/
theorem C4_index_equivalence (g : Grout) (idx : ℤ) :
    g.tile_at_linear idx =
      g.tile_at (idx % (g.tile_cols : ℤ)) (idx / (g.tile_cols : ℤ)) := rfl

lemma Grout.tile_at_error_iff (g : Grout) (tc tr : ℤ) :
    (∃ e, g.tile_at tc tr = Except.error e) ↔
      ¬ (0 ≤ tc ∧ tc < (g.tile_cols : ℤ) ∧ 0 ≤ tr ∧ tr < (g.tile_rows : ℤ)) := by
  unfold Grout.tile_at
  by_cases h : 0 ≤ tc ∧ tc < (g.tile_cols : ℤ) ∧ 0 ≤ tr ∧ tr < (g.tile_rows : ℤ)
  · rw [if_pos h]
    simp [h]
  · rw [if_neg h]
    simp [h]

lemma Grout.tile_at_ok_iff (g : Grout) (tc tr : ℤ) :
    (∃ t, g.tile_at tc tr = Except.ok t) ↔
      (0 ≤ tc ∧ tc < (g.tile_cols : ℤ) ∧ 0 ≤ tr ∧ tr < (g.tile_rows : ℤ)) := by
  unfold Grout.tile_at
  by_cases h : 0 ≤ tc ∧ tc < (g.tile_cols : ℤ) ∧ 0 ≤ tr ∧ tr < (g.tile_rows : ℤ)
  · rw [if_pos h]
    simp [h]
  · rw [if_neg h]
    simp [h]

lemma divmod_in_range_iff {C R idx : ℤ} (hC : 0 < C) :
    (0 ≤ idx % C ∧ idx % C < C ∧ 0 ≤ idx / C ∧ idx / C < R) ↔
      (0 ≤ idx ∧ idx < C * R) := by
  constructor
  · rintro ⟨-, -, h3, h4⟩
    have h0 : 0 ≤ idx := by
      by_contra hneg
      push_neg at hneg
      exact absurd h3 (Int.not_le.mpr (Int.ediv_neg' hneg hC))
    refine ⟨h0, ?_⟩
    rw [Int.mul_comm]
    exact (Int.ediv_lt_iff_lt_mul hC).mp h4
  · rintro ⟨h0, hlt⟩
    rw [Int.mul_comm] at hlt
    exact ⟨Int.emod_nonneg idx (ne_of_gt hC), Int.emod_lt_of_pos idx hC,
      Int.ediv_nonneg h0 (le_of_lt hC), (Int.ediv_lt_iff_lt_mul hC).mpr hlt⟩

/-- C7: `tile_at` errors exactly when `(col, row)` is outside
`[0, tile_cols) × [0, tile_rows)` and returns a record otherwise;
`tile_at_linear` errors exactly when the index is outside
`[0, tile_cols * tile_rows)` and returns a record otherwise. -/
theorem C7_out_of_range (g : Grout) (hcols : 0 < g.tile_cols) (hrows : 0 < g.tile_rows) :
    (∀ tc tr : ℤ, (∃ e, g.tile_at tc tr = Except.error e) ↔
      ¬ (0 ≤ tc ∧ tc < (g.tile_cols : ℤ) ∧ 0 ≤ tr ∧ tr < (g.tile_rows : ℤ))) ∧
    (∀ tc tr : ℤ, (∃ t, g.tile_at tc tr = Except.ok t) ↔
      (0 ≤ tc ∧ tc < (g.tile_cols : ℤ) ∧ 0 ≤ tr ∧ tr < (g.tile_rows : ℤ))) ∧
    (∀ idx : ℤ, (∃ e, g.tile_at_linear idx = Except.error e) ↔
      ¬ (0 ≤ idx ∧ idx < ((g.tile_cols * g.tile_rows : ℕ) : ℤ))) ∧
    (∀ idx : ℤ, (∃ t, g.tile_at_linear idx = Except.ok t) ↔
      (0 ≤ idx ∧ idx < ((g.tile_cols * g.tile_rows : ℕ) : ℤ))) := by
  have hC : (0 : ℤ) < (g.tile_cols : ℤ) := by exact_mod_cast hcols
  have hcast : ((g.tile_cols * g.tile_rows : ℕ) : ℤ) =
      (g.tile_cols : ℤ) * (g.tile_rows : ℤ) := by push_cast; ring
  refine ⟨g.tile_at_error_iff, g.tile_at_ok_iff, ?_, ?_⟩
  · intro idx
    rw [show g.tile_at_linear idx =
        g.tile_at (idx % (g.tile_cols : ℤ)) (idx / (g.tile_cols : ℤ)) from rfl,
      g.tile_at_error_iff, hcast]
    exact not_congr (divmod_in_range_iff hC)
  · intro idx
    rw [show g.tile_at_linear idx =
        g.tile_at (idx % (g.tile_cols : ℤ)) (idx / (g.tile_cols : ℤ)) from rfl,
      g.tile_at_ok_iff, hcast]
    exact divmod_in_range_iff hC

/-- Witness for C7 at the test-suite grid: linear index 8 is out of range for
the 8-tile grid and errors, index 7 is in range. -/
theorem C7_out_of_range_witness :
    (0 : ℕ) < g1000.tile_cols ∧ (0 : ℕ) < g1000.tile_rows ∧
    ((∃ e, g1000.tile_at_linear 8 = Except.error e) ↔
      ¬ ((0 : ℤ) ≤ 8 ∧ (8 : ℤ) < ((g1000.tile_cols * g1000.tile_rows : ℕ) : ℤ))) :=
  ⟨by decide, by decide,
    (C7_out_of_range g1000 (by decide) (by decide)).2.2.1 8⟩

/-- C8: for positive grid dimensions and block sizes (the claim's grid
scope, under which none of the source's divisions can raise), construction
errors exactly when neither extent nor transform is supplied; an extent
yields resolutions `(xmax - xmin) / grid_width`, `(ymax - ymin) / grid_height`
with origin `(xmin, ymax)`; a transform yields origin and x-resolution
directly and negates the stored (negative) y-resolution, making it
positive. -/
theorem C8_construction (dim blocksize : ℕ × ℕ) (hc : 0 < dim.1) (hr : 0 < dim.2)
    (hbw : 0 < blocksize.1) (hbh : 0 < blocksize.2) :
    (Grout.init dim blocksize none none =
      Except.error "Must provide extent or transform") ∧
    (∀ xmin xmax ymin ymax : ℚ, ∀ tf : Option (ℚ × ℚ × ℚ × ℚ × ℚ × ℚ),
      Grout.init dim blocksize (some (xmin, xmax, ymin, ymax)) tf =
        Except.ok { ncol := dim.1, nrow := dim.2
                    block_width := blocksize.1, block_height := blocksize.2
                    xmin := xmin, ymax := ymax
                    xres := (xmax - xmin) / (dim.1 : ℚ)
                    yres := (ymax - ymin) / (dim.2 : ℚ) }) ∧
    (∀ ox xr a oy b yr : ℚ,
      Grout.init dim blocksize none (some (ox, xr, a, oy, b, yr)) =
        Except.ok { ncol := dim.1, nrow := dim.2
                    block_width := blocksize.1, block_height := blocksize.2
                    xmin := ox, ymax := oy, xres := xr, yres := -yr }) ∧
    (∀ ox xr a oy b yr : ℚ, 0 < yr →
      ∃ g : Grout, Grout.init dim blocksize none (some (ox, xr, a, oy, b, -yr)) =
          Except.ok g ∧
        g.xmin = ox ∧ g.ymax = oy ∧ g.xres = xr ∧ g.yres = yr ∧ 0 < g.yres) := by
  have e1 : ¬ dim.1 = 0 := by omega
  have e2 : ¬ dim.2 = 0 := by omega
  have e3 : ¬ blocksize.1 = 0 := by omega
  have e4 : ¬ blocksize.2 = 0 := by omega
  refine ⟨rfl, ?_, ?_, ?_⟩
  · intro xmin xmax ymin ymax tf
    simp only [Grout.init]
    rw [if_neg e1, if_neg e2, if_neg e3, if_neg e4]
  · intro ox xr a oy b yr
    simp only [Grout.init]
    rw [if_neg e3, if_neg e4]
  · intro ox xr a oy b yr hyr
    refine ⟨{ ncol := dim.1, nrow := dim.2
              block_width := blocksize.1, block_height := blocksize.2
              xmin := ox, ymax := oy, xres := xr, yres := -(-yr) },
      ?_, rfl, rfl, rfl, neg_neg yr, by simpa using hyr⟩
    simp only [Grout.init]
    rw [if_neg e3, if_neg e4]

/-- Witness for C8: transform `(0, 1/10, 0, 50, 0, -(1/10))` on the positive
test-suite grid yields positive `yres = 1/10`. -/
theorem C8_construction_witness :
    (0 : ℚ) < 1/10 ∧
    ∃ g : Grout, Grout.init (1000, 500) (256, 256) none
        (some (0, 1/10, 0, 50, 0, -(1/10))) = Except.ok g ∧
      g.xmin = 0 ∧ g.ymax = 50 ∧ g.xres = 1/10 ∧ g.yres = 1/10 ∧ 0 < g.yres :=
  ⟨by norm_num,
    (C8_construction (1000, 500) (256, 256) (by decide) (by decide) (by decide)
      (by decide)).2.2.2 0 (1/10) 0 50 0 (1/10) (by norm_num)⟩

/-- C9: for positive grid dimensions and block sizes, when both an extent
and a transform are supplied construction succeeds and equals construction
from the extent alone — the source tests `extent` first and never reads
`transform` in that branch. -/
theorem C9_extent_precedence (dim blocksize : ℕ × ℕ) (hc : 0 < dim.1) (hr : 0 < dim.2)
    (hbw : 0 < blocksize.1) (hbh : 0 < blocksize.2) (e : ℚ × ℚ × ℚ × ℚ)
    (t : ℚ × ℚ × ℚ × ℚ × ℚ × ℚ) :
    (∃ g : Grout, Grout.init dim blocksize (some e) (some t) = Except.ok g) ∧
    Grout.init dim blocksize (some e) (some t) =
      Grout.init dim blocksize (some e) none := by
  obtain ⟨xmin, xmax, ymin, ymax⟩ := e
  refine ⟨⟨{ ncol := dim.1, nrow := dim.2
             block_width := blocksize.1, block_height := blocksize.2
             xmin := xmin, ymax := ymax
             xres := (xmax - xmin) / (dim.1 : ℚ)
             yres := (ymax - ymin) / (dim.2 : ℚ) }, ?_⟩, rfl⟩
  simp only [Grout.init]
  rw [if_neg (by omega : ¬ dim.1 = 0), if_neg (by omega : ¬ dim.2 = 0),
    if_neg (by omega : ¬ blocksize.1 = 0), if_neg (by omega : ¬ blocksize.2 = 0)]

/-- Witness for C9: on the test-suite grid, supplying both the extent
`(0, 100, 0, 50)` and a transform succeeds and equals extent-only
construction. -/
theorem C9_extent_precedence_witness :
    (∃ g : Grout, Grout.init (1000, 500) (256, 256) (some (0, 100, 0, 50))
        (some (0, 1, 0, 50, 0, -1)) = Except.ok g) ∧
    Grout.init (1000, 500) (256, 256) (some (0, 100, 0, 50))
        (some (0, 1, 0, 50, 0, -1)) =
      Grout.init (1000, 500) (256, 256) (some (0, 100, 0, 50)) none :=
  C9_extent_precedence (1000, 500) (256, 256) (by decide) (by decide) (by decide)
    (by decide) (0, 100, 0, 50) (0, 1, 0, 50, 0, -1)

/-- C10: `index_partition 0` fails with the division-by-zero error for every
grid configuration, while every `n ≥ 1` succeeds with a list of ranges. -/
theorem C10_partition_zero (g : Grout) :
    g.index_partition 0 = Except.error "division by zero" ∧
    (∀ n : ℕ, 1 ≤ n → ∃ l, g.index_partition n = Except.ok l) := by
  refine ⟨rfl, fun n hn => ⟨g.index_partition_ranges n, ?_⟩⟩
  unfold Grout.index_partition
  rw [if_neg (by omega)]

/-- Witness for C10: partitioning the 8-tile test grid into 3 chunks succeeds. -/
theorem C10_partition_zero_witness :
    (1 : ℕ) ≤ 3 ∧ ∃ l, g1000.index_partition 3 = Except.ok l :=
  ⟨by decide, (C10_partition_zero g1000).2 3 (by decide)⟩

/-! ### Row-major iteration -/

lemma range_prod_flatMap {α : Type} (R C : ℕ) (f : ℕ → ℕ → α) :
    ((List.range R).flatMap fun r => (List.range C).map fun c => f c r) =
      (List.range (R * C)).map fun i => f (i % C) (i / C) := by
  rcases Nat.eq_zero_or_pos C with hC | hC
  · subst hC
    simp
  · induction R with
    | zero => simp
    | succ R ih =>
      rw [List.range_succ, List.flatMap_append, ih, Nat.succ_mul, List.range_add,
        List.map_append, List.map_map, List.flatMap_singleton]
      congr 1
      apply List.map_congr_left
      intro j hj
      have hjC : j < C := List.mem_range.mp hj
      have hmod : (R * C + j) % C = j := by
        rw [Nat.mul_comm, Nat.mul_add_mod, Nat.mod_eq_of_lt hjC]
      have hdiv : (R * C + j) / C = R := by
        rw [Nat.mul_comm, Nat.mul_add_div hC, Nat.div_eq_of_lt hjC, Nat.add_zero]
      show f j R = f ((R * C + j) % C) ((R * C + j) / C)
      rw [hmod, hdiv]

lemma Grout.iterate_eq (g : Grout) :
    g.iterate =
      (List.range g.len).map fun i => g.tileBody (i % g.tile_cols) (i / g.tile_cols) :=
  range_prod_flatMap g.tile_rows g.tile_cols fun tc tr => g.tileBody tc tr

/-- C3: iteration produces exactly `len` tile records; the record at
position `i` is the one the linear-index lookup returns, computed for
column `i % tile_cols`, row `i / tile_cols` (row-major order).  The
embedding is a pure function of the grid, so every evaluation of `iterate`
yields the same fresh sequence with no shared cursor state. -/
theorem C3_iterate_row_major (g : Grout) :
    g.iterate.length = g.len ∧
    (∀ i : ℕ, g.iterate.get? i =
      if i < g.len then some (g.tileBody (i % g.tile_cols) (i / g.tile_cols)) else none) ∧
    (∀ i : ℕ, (g.tile_at_linear (i : ℤ)).toOption = g.iterate.get? i) := by
  have hget : ∀ i : ℕ, g.iterate.get? i =
      if i < g.len then some (g.tileBody (i % g.tile_cols) (i / g.tile_cols)) else none := by
    intro i
    rw [g.iterate_eq, List.get?_map]
    by_cases hi : i < g.len
    · rw [if_pos hi, List.get?_range hi]
      rfl
    · rw [if_neg hi, List.get?_eq_none.mpr (by simpa using Nat.le_of_not_lt hi)]
      rfl
  refine ⟨by rw [g.iterate_eq, List.length_map, List.length_range], hget, ?_⟩
  intro i
  rcases Nat.eq_zero_or_pos g.tile_cols with hC | hC
  · have herr : ∃ e, g.tile_at_linear (i : ℤ) = Except.error e := by
      rw [show g.tile_at_linear (i : ℤ) =
          g.tile_at ((i : ℤ) % (g.tile_cols : ℤ)) ((i : ℤ) / (g.tile_cols : ℤ)) from rfl,
        g.tile_at_error_iff]
      rintro ⟨h1, h2, -⟩
      rw [hC] at h2
      simp only [Nat.cast_zero] at h2
      omega
    obtain ⟨e, he⟩ := herr
    have hlen0 : g.len = 0 := by
      unfold Grout.len
      rw [hC, Nat.mul_zero]
    rw [he, hget i, if_neg (by omega)]
    rfl
  · by_cases hi : i < g.len
    · have hcol : i % g.tile_cols < g.tile_cols := Nat.mod_lt _ hC
      have hrow : i / g.tile_cols < g.tile_rows := by
        rw [Nat.div_lt_iff_lt_mul hC]
        exact hi
      have hok : g.tile_at_linear (i : ℤ) =
          Except.ok (g.tileBody (i % g.tile_cols) (i / g.tile_cols)) := by
        show g.tile_at ((i : ℤ) % (g.tile_cols : ℤ)) ((i : ℤ) / (g.tile_cols : ℤ)) = _
        rw [← Int.ofNat_emod, ← Int.ofNat_ediv]
        exact g.tile_at_ok hcol hrow
      rw [hok, hget i, if_pos hi]
      rfl
    · have herr : ∃ e, g.tile_at_linear (i : ℤ) = Except.error e := by
        rw [show g.tile_at_linear (i : ℤ) =
            g.tile_at ((i : ℤ) % (g.tile_cols : ℤ)) ((i : ℤ) / (g.tile_cols : ℤ)) from rfl,
          g.tile_at_error_iff]
        rintro ⟨h1, h2, h3, h4⟩
        have hCz : (0 : ℤ) < (g.tile_cols : ℤ) := by exact_mod_cast hC
        have h5 : (i : ℤ) < (g.tile_cols : ℤ) * (g.tile_rows : ℤ) :=
          ((divmod_in_range_iff hCz).mp ⟨h1, h2, h3, h4⟩).2
        have h6 : i < g.tile_cols * g.tile_rows := by exact_mod_cast h5
        rw [Nat.mul_comm] at h6
        unfold Grout.len at hi
        omega
      obtain ⟨e, he⟩ := herr
      rw [he, hget i, if_neg hi]
      rfl

/-! ### Coordinate coverage -/

lemma Grout.tileBody_xmin (g : Grout) (tc tr : ℕ) :
    (g.tileBody tc tr).xmin = g.xmin + ((tc * g.block_width : ℕ) : ℚ) * g.xres := rfl

lemma Grout.tileBody_xmax (g : Grout) (tc tr : ℕ) :
    (g.tileBody tc tr).xmax = g.xmin + ((tc * g.block_width : ℕ) : ℚ) * g.xres
      + ((min g.block_width (g.ncol - tc * g.block_width) : ℕ) : ℚ) * g.xres := rfl

lemma Grout.tileBody_ymax (g : Grout) (tc tr : ℕ) :
    (g.tileBody tc tr).ymax = g.ymax - ((tr * g.block_height : ℕ) : ℚ) * g.yres := rfl

lemma Grout.tileBody_ymin (g : Grout) (tc tr : ℕ) :
    (g.tileBody tc tr).ymin = g.ymax - ((tr * g.block_height : ℕ) : ℚ) * g.yres
      - ((min g.block_height (g.nrow - tr * g.block_height) : ℕ) : ℚ) * g.yres := rfl

/-- C5: within a fixed row, tiles in column order are sorted by `offset_x`;
adjacent tiles abut exactly (`xmin` of the next equals `xmax` of the
previous, exact rational arithmetic standing in for the float computation);
the first tile starts at the origin `x` and the last tile ends at
`origin_x + grid_width * x_resolution`; and symmetrically in `y`, where the
first row starts at `origin_y` and the last row ends at
`origin_y - grid_height * y_resolution`. -/
theorem C5_coverage (g : Grout) (hbw : 0 < g.block_width) (hbh : 0 < g.block_height)
    (hc : 0 < g.ncol) (hr : 0 < g.nrow) :
    (∀ tc tc' row : ℕ, tc < tc' →
      (g.tileBody tc row).offset_x < (g.tileBody tc' row).offset_x) ∧
    (∀ tc row : ℕ, tc + 1 < g.tile_cols →
      (g.tileBody (tc + 1) row).xmin = (g.tileBody tc row).xmax) ∧
    (∀ row : ℕ, (g.tileBody 0 row).xmin = g.xmin) ∧
    (∀ row : ℕ, (g.tileBody (g.tile_cols - 1) row).xmax
      = g.xmin + (g.ncol : ℚ) * g.xres) ∧
    (∀ tr tr' col : ℕ, tr < tr' →
      (g.tileBody col tr).offset_y < (g.tileBody col tr').offset_y) ∧
    (∀ tr col : ℕ, tr + 1 < g.tile_rows →
      (g.tileBody col (tr + 1)).ymax = (g.tileBody col tr).ymin) ∧
    (∀ col : ℕ, (g.tileBody col 0).ymax = g.ymax) ∧
    (∀ col : ℕ, (g.tileBody col (g.tile_rows - 1)).ymin
      = g.ymax - (g.nrow : ℚ) * g.yres) := by
  have hcols : 0 < g.tile_cols := by
    rw [g.lt_tile_cols_iff hbw]
    simpa using hc
  have hrows : 0 < g.tile_rows := by
    rw [g.lt_tile_rows_iff hbh]
    simpa using hr
  have hW := @last_block_size g.block_width g.ncol hbw hc
  have hH := @last_block_size g.block_height g.nrow hbh hr
  rw [show ceilDiv g.ncol g.block_width = g.tile_cols from rfl] at hW
  rw [show ceilDiv g.nrow g.block_height = g.tile_rows from rfl] at hH
  refine ⟨?_, ?_, ?_, ?_, ?_, ?_, ?_, ?_⟩
  · intro tc tc' row h
    exact (Nat.mul_lt_mul_right hbw).mpr h
  · intro tc row h
    have h1 : (tc + 1) * g.block_width < g.ncol := (g.lt_tile_cols_iff hbw).mp h
    have he : (tc + 1) * g.block_width = tc * g.block_width + g.block_width := by ring
    have h2 : g.block_width ≤ g.ncol - tc * g.block_width := by omega
    rw [g.tileBody_xmin, g.tileBody_xmax, Nat.min_eq_left h2, he]
    push_cast
    ring
  · intro row
    rw [g.tileBody_xmin]
    norm_num
  · intro row
    have hle : (g.tile_cols - 1) * g.block_width ≤ g.ncol :=
      Nat.le_of_lt ((g.lt_tile_cols_iff hbw).mp (by omega))
    rw [g.tileBody_xmax, Nat.min_eq_right hW.1, Nat.cast_sub hle]
    push_cast
    ring
  · intro tr tr' col h
    exact (Nat.mul_lt_mul_right hbh).mpr h
  · intro tr col h
    have h1 : (tr + 1) * g.block_height < g.nrow := (g.lt_tile_rows_iff hbh).mp h
    have he : (tr + 1) * g.block_height = tr * g.block_height + g.block_height := by ring
    have h2 : g.block_height ≤ g.nrow - tr * g.block_height := by omega
    rw [g.tileBody_ymax, g.tileBody_ymin, Nat.min_eq_left h2, he]
    push_cast
    ring
  · intro col
    rw [g.tileBody_ymax]
    norm_num
  · intro col
    have hle : (g.tile_rows - 1) * g.block_height ≤ g.nrow :=
      Nat.le_of_lt ((g.lt_tile_rows_iff hbh).mp (by omega))
    rw [g.tileBody_ymin, Nat.min_eq_right hH.1, Nat.cast_sub hle]
    push_cast
    ring

/-- Witness for C5 at the test-suite grid: tile `(1,0)` starts where tile
`(0,0)` ends, and row 0 starts at the origin `x = 0`. -/
theorem C5_coverage_witness :
    (0 : ℕ) + 1 < g1000.tile_cols ∧
    (g1000.tileBody (0 + 1) 0).xmin = (g1000.tileBody 0 0).xmax ∧
    (g1000.tileBody 0 0).xmin = g1000.xmin :=
  ⟨by decide,
    (C5_coverage g1000 (by decide) (by decide) (by decide) (by decide)).2.1 0 0 (by decide),
    (C5_coverage g1000 (by decide) (by decide) (by decide) (by decide)).2.2.1 0⟩

/-! ### Index partitioning -/

lemma ceilDiv_zero_left (b : ℕ) : ceilDiv 0 b = 0 := by
  rcases Nat.eq_zero_or_pos b with hb | hb
  · subst hb
    rfl
  · exact Nat.div_eq_of_lt (by omega)

lemma ceilDiv_ceilDiv_le (L n : ℕ) (hn : 0 < n) : ceilDiv L (ceilDiv L n) ≤ n := by
  rcases Nat.eq_zero_or_pos L with hL | hL
  · subst hL
    rw [ceilDiv_zero_left]
    omega
  · have hp0 : 0 < ceilDiv L n := (ceilDiv_pos_iff hn).mpr hL
    rw [ceilDiv_le_iff hp0]
    calc L ≤ ceilDiv L n * n := le_ceilDiv_mul hn L
      _ = n * ceilDiv L n := Nat.mul_comm _ _

lemma filter_range_lt (n k : ℕ) :
    (List.range n).filter (fun i => decide (i < k)) = List.range (min n k) := by
  induction n with
  | zero => simp
  | succ n ih =>
    rw [List.range_succ, List.filter_append, ih]
    by_cases h : n < k
    · have h1 : min n k = n := Nat.min_eq_left (Nat.le_of_lt h)
      have h2 : min (n + 1) k = n + 1 := Nat.min_eq_left h
      rw [h1, h2, List.range_succ]
      congr 1
      simp [h]
    · have h1 : min n k = k := Nat.min_eq_right (Nat.le_of_not_lt h)
      have h2 : min (n + 1) k = k := Nat.min_eq_right (by omega)
      rw [h1, h2]
      simp [h]

lemma partition_ranges_closed (L n : ℕ) (hn : 0 < n) :
    (((List.range n).map fun i =>
        (i * ceilDiv L n, min (i * ceilDiv L n + ceilDiv L n) L)).filter
      fun r => decide (r.1 < r.2)) =
    ((List.range (ceilDiv L (ceilDiv L n))).map fun i =>
        (i * ceilDiv L n, min (i * ceilDiv L n + ceilDiv L n) L)) := by
  have hkn : ceilDiv L (ceilDiv L n) ≤ n := ceilDiv_ceilDiv_le L n hn
  rw [List.filter_map]
  congr 1
  have hcong : ∀ i ∈ List.range n,
      ((fun r : ℕ × ℕ => decide (r.1 < r.2)) ∘ fun i =>
        (i * ceilDiv L n, min (i * ceilDiv L n + ceilDiv L n) L)) i
      = (fun i => decide (i < ceilDiv L (ceilDiv L n))) i := by
    intro i _
    simp only [Function.comp]
    rw [decide_eq_decide]
    rcases Nat.eq_zero_or_pos L with hL | hL
    · subst hL
      rw [ceilDiv_zero_left, ceilDiv_zero_left]
      simp
    · have hp0 : 0 < ceilDiv L n := (ceilDiv_pos_iff hn).mpr hL
      rw [lt_ceilDiv_iff hp0, Nat.lt_min]
      constructor
      · rintro ⟨-, h2⟩
        exact h2
      · intro h2
        exact ⟨by omega, h2⟩
  rw [List.filter_congr hcong, filter_range_lt, Nat.min_eq_right hkn]

lemma Grout.index_partition_ranges_eq (g : Grout) {n : ℕ} (hn : 0 < n) :
    g.index_partition_ranges n =
      ((List.range (ceilDiv g.len (ceilDiv g.len n))).map fun i =>
        (i * ceilDiv g.len n, min (i * ceilDiv g.len n + ceilDiv g.len n) g.len)) :=
  partition_ranges_closed g.len n hn

/-- C6: for `n ≥ 1` the partition generator succeeds; it yields at most `n`
ranges, each non-empty of length at most `ceil(len / n)`; earlier ranges lie
entirely before later ones (sorted, disjoint); consecutive ranges are
contiguous; and the union of the ranges is exactly `[0, len)`. -/
theorem C6_partition_complete (g : Grout) (n : ℕ) (hn : 1 ≤ n) :
    g.index_partition n = Except.ok (g.index_partition_ranges n) ∧
    (g.index_partition_ranges n).length ≤ n ∧
    (∀ r ∈ g.index_partition_ranges n, r.1 < r.2 ∧ r.2 - r.1 ≤ ceilDiv g.len n) ∧
    (g.index_partition_ranges n).Pairwise (fun r s => r.2 ≤ s.1) ∧
    (∀ j a b, (g.index_partition_ranges n).get? j = some a →
      (g.index_partition_ranges n).get? (j + 1) = some b → a.2 = b.1) ∧
    (∀ m : ℕ, m < g.len ↔ ∃ r ∈ g.index_partition_ranges n, r.1 ≤ m ∧ m < r.2) := by
  have hn0 : 0 < n := hn
  have hfirst : g.index_partition n = Except.ok (g.index_partition_ranges n) := by
    unfold Grout.index_partition
    rw [if_neg (by omega)]
  set p := ceilDiv g.len n with hp
  set k := ceilDiv g.len p with hk
  have hE := g.index_partition_ranges_eq hn0
  rw [← hp, ← hk] at hE
  rcases Nat.eq_zero_or_pos g.len with hL | hL
  · have hp0 : p = 0 := by rw [hp, hL, ceilDiv_zero_left]
    have hk0 : k = 0 := by rw [hk, hL, ceilDiv_zero_left]
    have hnil : g.index_partition_ranges n = [] := by
      rw [hE, hk0]
      simp
    refine ⟨hfirst, ?_, ?_, ?_, ?_, ?_⟩
    · rw [hnil]
      simp
    · rw [hnil]
      simp
    · rw [hnil]
      simp
    · intro j a b ha hb
      rw [hnil] at ha
      simp at ha
    · intro m
      rw [hnil, hL]
      simp
  · have hp0 : 0 < p := by
      rw [hp]
      exact (ceilDiv_pos_iff hn0).mpr hL
    have hkn : k ≤ n := by
      rw [hk, hp]
      exact ceilDiv_ceilDiv_le g.len n hn0
    have hBnd : g.len ≤ k * p := by
      rw [hk]
      exact le_ceilDiv_mul hp0 g.len
    have hA : ∀ i, i < k → i * p < g.len := by
      intro i hi
      rw [hk] at hi
      exact (lt_ceilDiv_iff hp0).mp hi
    refine ⟨hfirst, ?_, ?_, ?_, ?_, ?_⟩
    · rw [hE, List.length_map, List.length_range]
      exact hkn
    · intro r hr
      rw [hE] at hr
      obtain ⟨i, hik, rfl⟩ := List.mem_map.mp hr
      have hik' : i < k := List.mem_range.mp hik
      have h1 := hA i hik'
      have h2 := Nat.min_le_left (i * p + p) g.len
      constructor
      · exact Nat.lt_min.mpr ⟨by omega, h1⟩
      · omega
    · rw [hE]
      refine List.Pairwise.map _ ?_ (List.pairwise_lt_range k)
      intro a b hab
      have h1 : (a + 1) * p ≤ b * p := Nat.mul_le_mul_right p (by omega)
      have h2 : (a + 1) * p = a * p + p := by ring
      have h3 := Nat.min_le_left (a * p + p) g.len
      show min (a * p + p) g.len ≤ b * p
      omega
    · intro j a b ha hb
      rw [hE, List.get?_map] at ha hb
      have hjk1 : j + 1 < k := by
        by_contra hcon
        rw [List.get?_eq_none.mpr (by simpa using Nat.le_of_not_lt hcon)] at hb
        simp at hb
      have hjk : j < k := by omega
      rw [List.get?_range hjk] at ha
      rw [List.get?_range hjk1] at hb
      simp only [Option.map_some', Option.some.injEq] at ha hb
      subst ha
      subst hb
      have h2 := hA (j + 1) hjk1
      have he : (j + 1) * p = j * p + p := by ring
      show min (j * p + p) g.len = (j + 1) * p
      rw [Nat.min_eq_left (by omega)]
      omega
    · intro m
      constructor
      · intro hm
        have hdivk : m / p < k := by
          rw [Nat.div_lt_iff_lt_mul hp0]
          omega
        refine ⟨(m / p * p, min (m / p * p + p) g.len), ?_, ?_, ?_⟩
        · rw [hE]
          exact List.mem_map_of_mem _ (List.mem_range.mpr hdivk)
        · exact Nat.div_mul_le_self m p
        · have hdm := Nat.div_add_mod m p
          have hmp : m % p < p := Nat.mod_lt _ hp0
          have hcomm : p * (m / p) = m / p * p := Nat.mul_comm _ _
          exact Nat.lt_min.mpr ⟨by omega, hm⟩
      · rintro ⟨r, hr, h1, h2⟩
        rw [hE] at hr
        obtain ⟨i, -, rfl⟩ := List.mem_map.mp hr
        exact Nat.lt_of_lt_of_le h2 (Nat.min_le_right _ _)

/-- Witness for C6: the 8-tile test grid splits into 3 chunks successfully. -/
theorem C6_partition_complete_witness :
    g1000.index_partition 3 = Except.ok (g1000.index_partition_ranges 3) :=
  (C6_partition_complete g1000 3 (by decide)).1
